import Mathlib

/-! Verification of the questionnaire reconciliation core of the MLPRALS
repository (`src/ui/pages/questionnaire.py` and the questionnaire-facing part
of `src/ui/pages/app_flow.py`).

Python values stored in the Streamlit session state are modelled by `PyVal`;
the session state itself is a partial map from structured keys to values.
Streamlit's rerun model is embedded as pure state-passing: one render of a
question is a function from session state to session state plus the response
value the page records for that question, and button clicks are explicit
boolean event parameters. -/

/-- PyVal models the Python values that appear in the session state: booleans,
integers, strings and `None`.  Python's `bool` is a subtype of `int`
(`True == 1`, `False == 0`); the embedding keeps booleans as a separate
constructor and reproduces the numeric behaviour explicitly where the source
relies on it (`is_valid_level`, `int(...)`).  Floats are not modelled; no
claim depends on non-integral numerics. -/
inductive PyVal where
  | vbool : Bool → PyVal
  | vint : Int → PyVal
  | vstr : String → PyVal
  | vnone : PyVal
  deriving DecidableEq, Repr

/-- Python truthiness `bool(v)`: `False`, `0`, `""` and `None` are falsy. -/
def truthy : PyVal → Bool
  | .vbool b => b
  | .vint n => n != 0
  | .vstr s => s != ""
  | .vnone => false

/-- Python `int(v)` for the values the source applies it to (values passing
`is_valid_level`, i.e. booleans and integers).  `int(True) = 1`,
`int(False) = 0`.  The string and `None` branches are never reached by the
source (they would raise); they are given the harmless value 0. -/
def pyInt : PyVal → Int
  | .vbool b => if b then 1 else 0
  | .vint n => n
  | .vstr _ => 0
  | .vnone => 0

/-- Python `str(v)`. -/
def pyStr : PyVal → String
  | .vbool b => if b then "True" else "False"
  | .vint n => toString n
  | .vstr s => s
  | .vnone => "None"

/-- Python `str.strip()`: drop leading and trailing whitespace.  Implemented
over the character list so that it is kernel-reducible (Lean's `String.trim`
uses well-founded recursion the kernel cannot evaluate). -/
def pyStrip (s : String) : String :=
  String.mk (((s.data.dropWhile Char.isWhitespace).reverse.dropWhile
    Char.isWhitespace).reverse)

/-- Python `str.strip().lower()` as used by `to_bool`. -/
def pyStripLower (s : String) : String :=
  String.mk ((pyStrip s).data.map Char.toLower)

/-- Value of a digit string, or `none` if empty or containing a non-digit.
48 is the code point of the digit zero. -/
def digitsVal (cs : List Char) : Option Nat :=
  if cs.isEmpty then Option.none
  else cs.foldl
    (fun acc ch => acc.bind
      (fun n => if ch.isDigit then some (10 * n + (ch.toNat - 48)) else Option.none))
    (some 0)

/-- Python `int(s)` on a string: optional surrounding whitespace, optional
sign, then decimal digits; anything else raises (modelled as `none`).
Underscore digit separators, accepted by CPython, are not modelled; no claim
depends on them. -/
def pyParseInt (s : String) : Option Int :=
  match (pyStrip s).data with
  | '+' :: rest => (digitsVal rest).map (fun n => (n : Int))
  | '-' :: rest => (digitsVal rest).map (fun n => -(n : Int))
  | cs => (digitsVal cs).map (fun n => (n : Int))

/-- VALID_LEVELS from the source (`(1, 2, 3, 4, 5)`). -/
def VALID_LEVELS : List Int := [1, 2, 3, 4, 5]

/-- LEVEL_DEFAULT from the source. -/
def LEVEL_DEFAULT : Int := 2

/-- to_bool from the source: bools pass through, `None` is false, numerics go
through `bool(int(value))`, and anything else is compared, stripped and
lowercased, against the set {"true", "1", "yes", "y", "on"}. -/
def to_bool : PyVal → Bool
  | .vbool b => b
  | .vnone => false
  | .vint n => n != 0
  | .vstr s => ["true", "1", "yes", "y", "on"].contains (pyStripLower s)

/-- to_level from the source: `int(str(value).strip())`, falling back to the
default on a parse failure, and to the default when the parsed value is not in
VALID_LEVELS.  The source's explicit `.strip()` is absorbed by the stripping
`pyParseInt` performs, exactly as CPython's `int` strips again.  The source's
default parameter is always passed explicitly here. -/
def to_level (value : PyVal) (default : Int) : Int :=
  match pyParseInt (pyStr value) with
  | Option.none => default
  | some v => if VALID_LEVELS.contains v then v else default

/-- is_valid_level from the source: `isinstance(value, int) and value in
VALID_LEVELS`.  Python's `isinstance` accepts `bool` as `int`, and membership
uses numeric equality, so `True` (= 1) is a valid level and `False` (= 0) is
not. -/
def is_valid_level : PyVal → Bool
  | .vbool b => VALID_LEVELS.contains (if b then 1 else 0)
  | .vint n => VALID_LEVELS.contains n
  | .vstr _ => false
  | .vnone => false

/-- Modelled from the spec: `compute_suggested_level` lives in
`domain/scoring.py`, which is not under src/.  Spec §4.2/§6 give its contract
("given at least one of a/b/c/rt true and none false, returns a level in 2..5,
deterministic"), and spec §8's round-trip property pins its values on the
monotone patterns produced by rehydration.  It is modelled as one plus the
number of selected items, which satisfies both. -/
def compute_suggested_level (a b c rt : Bool) : Int :=
  1 + ((if a then 1 else 0) + (if b then 1 else 0)
    + (if c then 1 else 0) + (if rt then 1 else 0))

/-- compute_level_from_checklist from the source.  The keyword argument
`none` is renamed `nne` to avoid clashing with `Option.none`. -/
def compute_level_from_checklist (nne a b c rt : Bool) : Option Int :=
  let any_selected := nne || a || b || c || rt
  let contradictory := nne && (a || b || c || rt)
  if !any_selected || contradictory then Option.none
  else if nne then some 1
  else some (compute_suggested_level a b c rt)

/-- Checklist item tag for the help-item keys (the source passes the strings
"a", "b", "c", "rt" to `get_help_key`). -/
inductive CItem where
  | a | b | c | rt
  deriving DecidableEq, Repr

/-- Modelled from the spec: the key-builder module `utils/keys.py`
(`get_qkey`, `get_override_key`, `get_override_level_key`, `get_help_key`,
`get_none_key`) is not under src/.  Spec §4.1 only requires a fixed,
collision-free set of state keys per (dimension, concept); an inductive key
type realises that contract by construction.  `named` covers the page-level
string keys the source uses directly ("company_name_loaded", "__show_results",
etc.). -/
inductive SKey where
  | level : String → String → SKey
  | overrideFlag : String → String → SKey
  | overrideLevel : String → String → SKey
  | helpItem : String → String → CItem → SKey
  | noneBox : String → String → SKey
  | named : String → SKey
  deriving DecidableEq, Repr

/-- Session state: a partial map from keys to Python values. -/
abbrev St := SKey → Option PyVal

/-- Store a value under a key (`ss[k] = v`). -/
def setK (ss : St) (k : SKey) (v : PyVal) : St :=
  fun k2 => if k2 = k then some v else ss k2

/-- Remove a key (`del ss[k]` / `ss.pop(k, None)`). -/
def eraseK (ss : St) (k : SKey) : St :=
  fun k2 => if k2 = k then Option.none else ss k2

/-- Read a key the way Python's `ss.get(k)` does: absent keys read as `None`.
The source's `ss.get(k, False)` reads agree with this under `truthy` and
`to_bool`, both of which send `None` and `False` to `false`. -/
def getV (ss : St) (k : SKey) : PyVal := (ss k).getD PyVal.vnone

/-- QuestionKeys from the source: all session keys for one question. -/
structure QuestionKeys where
  qkey : SKey
  overrideKey : SKey
  overrideLevelKey : SKey
  aKey : SKey
  bKey : SKey
  cKey : SKey
  rtKey : SKey
  noneKey : SKey
  deriving DecidableEq, Repr

/-- build_question_keys from the source. -/
def build_question_keys (dim concept : String) : QuestionKeys where
  qkey := SKey.level dim concept
  overrideKey := SKey.overrideFlag dim concept
  overrideLevelKey := SKey.overrideLevel dim concept
  aKey := SKey.helpItem dim concept CItem.a
  bKey := SKey.helpItem dim concept CItem.b
  cKey := SKey.helpItem dim concept CItem.c
  rtKey := SKey.helpItem dim concept CItem.rt
  noneKey := SKey.noneBox dim concept

/-- Normalization of a single checkbox key: present values are forced to a
real bool via `to_bool`, absent keys are left absent. -/
def normalize1 (ss : St) (k : SKey) : St :=
  match ss k with
  | some v => setK ss k (PyVal.vbool (to_bool v))
  | Option.none => ss

/-- normalize_checkbox_state from the source: normalize the five checkbox
keys, in source order a, b, c, rt, none. -/
def normalize_checkbox_state (ss : St) (keys : QuestionKeys) : St :=
  normalize1 (normalize1 (normalize1 (normalize1 (normalize1
    ss keys.aKey) keys.bKey) keys.cKey) keys.rtKey) keys.noneKey

/-- rehydrate_checkboxes_from_level from the source: reset all five boxes to
False, then mark `none` for level 1, else mark `a` and additionally `b`, `c`,
`rt` as the level passes 3, 4, 5. -/
def rehydrate_checkboxes_from_level (ss : St) (keys : QuestionKeys)
    (level : Int) : St :=
  let ss0 := setK ss keys.aKey (PyVal.vbool false)
  let ss1 := setK ss0 keys.bKey (PyVal.vbool false)
  let ss2 := setK ss1 keys.cKey (PyVal.vbool false)
  let ss3 := setK ss2 keys.rtKey (PyVal.vbool false)
  let ss4 := setK ss3 keys.noneKey (PyVal.vbool false)
  if level = 1 then setK ss4 keys.noneKey (PyVal.vbool true)
  else
    let ss5 := setK ss4 keys.aKey (PyVal.vbool true)
    let ss6 := if 3 ≤ level then setK ss5 keys.bKey (PyVal.vbool true) else ss5
    let ss7 := if 4 ≤ level then setK ss6 keys.cKey (PyVal.vbool true) else ss6
    if 5 ≤ level then setK ss7 keys.rtKey (PyVal.vbool true) else ss7

/-- has_any_checkbox_selected from the source. -/
def has_any_checkbox_selected (ss : St) (keys : QuestionKeys) : Bool :=
  [keys.aKey, keys.bKey, keys.cKey, keys.rtKey, keys.noneKey].any
    (fun k => to_bool (getV ss k))

/-- ensure_override_level_initialized from the source: coerce a present
override level through `to_level`, otherwise install LEVEL_DEFAULT. -/
def ensure_override_level_initialized (ss : St) (keys : QuestionKeys) : St :=
  match ss keys.overrideLevelKey with
  | some v => setK ss keys.overrideLevelKey
      (PyVal.vint (to_level v LEVEL_DEFAULT))
  | Option.none => setK ss keys.overrideLevelKey (PyVal.vint LEVEL_DEFAULT)

/-- Checklist selection as read by the five checkbox widgets during one
render. -/
structure Sel where
  nne : Bool
  a : Bool
  b : Bool
  c : Bool
  rt : Bool
  deriving DecidableEq, Repr

/-- any_selected from the source (`none or a or b or c or rt`). -/
def anySelected (s : Sel) : Bool := s.nne || s.a || s.b || s.c || s.rt

/-- contradictory from the source (`none and (a or b or c or rt)`). -/
def contradictory (s : Sel) : Bool := s.nne && (s.a || s.b || s.c || s.rt)

/-- Value returned by a checkbox widget for key `k`: the stored bool when the
key is present (normalization has already forced present checkbox values to
bools), otherwise the widget default `False`. -/
def cbVal (ss : St) (k : SKey) : Bool :=
  match ss k with
  | some (PyVal.vbool b) => b
  | _ => false

/-- One pass over the five checkbox widgets in source order (a, b, c, rt,
none): each widget reads its session value and re-registers it. -/
def widgetPass (ss : St) (keys : QuestionKeys) : St × Sel :=
  let a := cbVal ss keys.aKey
  let ssa := setK ss keys.aKey (PyVal.vbool a)
  let b := cbVal ssa keys.bKey
  let ssb := setK ssa keys.bKey (PyVal.vbool b)
  let c := cbVal ssb keys.cKey
  let ssc := setK ssb keys.cKey (PyVal.vbool c)
  let rt := cbVal ssc keys.rtKey
  let ssrt := setK ssc keys.rtKey (PyVal.vbool rt)
  let nne := cbVal ssrt keys.noneKey
  let ssn := setK ssrt keys.noneKey (PyVal.vbool nne)
  (ssn, ⟨nne, a, b, c, rt⟩)

/-- State preparation for one question, as in the source render loop:
normalize the checkbox state, then rehydrate only if a valid stored level
exists but no checkbox is selected. -/
def prepState (ss : St) (keys : QuestionKeys) : St :=
  let ss1 := normalize_checkbox_state ss keys
  if is_valid_level (getV ss1 keys.qkey)
      && !(has_any_checkbox_selected ss1 keys) then
    rehydrate_checkboxes_from_level ss1 keys (pyInt (getV ss1 keys.qkey))
  else ss1

/-- Automatic scoring block of the render loop: when not overriding, the
stored level is popped on an invalid selection and set to the computed level
otherwise. -/
def autoPass (ss : St) (keys : QuestionKeys) (sel : Sel) : St :=
  if truthy (getV ss keys.overrideKey) then ss
  else
    match compute_level_from_checklist sel.nne sel.a sel.b sel.c sel.rt with
    | Option.none => eraseK ss keys.qkey
    | some l => setK ss keys.qkey (PyVal.vint l)

/-- render_override_controls from the source, with the "Use automatic level
again" button click as an explicit event.  When overriding: the override
level is initialised, the radio re-registers it and the stored level is set
from it; a click then clears the override flag and deletes the override
level key. -/
def render_override_controls (ss : St) (keys : QuestionKeys)
    (disableClicked : Bool) : St :=
  if truthy (getV ss keys.overrideKey) then
    let ss1 := ensure_override_level_initialized ss keys
    let ss2 := setK ss1 keys.qkey
      (PyVal.vint (pyInt (getV ss1 keys.overrideLevelKey)))
    if disableClicked then
      eraseK (setK ss2 keys.overrideKey (PyVal.vbool false))
        keys.overrideLevelKey
    else ss2
  else ss

/-- render_enable_override_button from the source, with the "Change this
level" click as an explicit event.  The clickable button exists only when not
already overriding; a click enables the override flag and seeds the override
level from the current stored level when valid, else LEVEL_DEFAULT. -/
def render_enable_override_button (ss : St) (keys : QuestionKeys)
    (enableClicked : Bool) : St :=
  if truthy (getV ss keys.overrideKey) then ss
  else if enableClicked then
    let ss1 := setK ss keys.overrideKey (PyVal.vbool true)
    setK ss1 keys.overrideLevelKey
      (PyVal.vint (if is_valid_level (getV ss1 keys.qkey)
        then pyInt (getV ss1 keys.qkey) else LEVEL_DEFAULT))
  else ss

/-- One render of a single question with explicit button events, following
the source order: prepare state, render checkbox widgets, automatic scoring
when not overriding, override controls, enable-override button.  A click on
either button triggers `st.rerun()` in the source, aborting the rest of the
page; the state returned here is the state that rerun starts from. -/
def questionRender (ss : St) (dim concept : String)
    (enableClicked disableClicked : Bool) : St :=
  let keys := build_question_keys dim concept
  let ss1 := prepState ss keys
  let w := widgetPass ss1 keys
  let ss3 := autoPass w.1 keys w.2
  let ss4 := render_override_controls ss3 keys disableClicked
  render_enable_override_button ss4 keys enableClicked

/-- Final validation of one question (source lines 419-426): the recorded
response is the stored level iff it is valid and either the override flag is
set or the selection is non-empty and non-contradictory. -/
def questionResp (ss : St) (keys : QuestionKeys) (sel : Sel) : Option Int :=
  if is_valid_level (getV ss keys.qkey)
      && (truthy (getV ss keys.overrideKey)
        || (anySelected sel && !contradictory sel)) then
    some (pyInt (getV ss keys.qkey))
  else Option.none

/-- The selection the widgets read during an event-free render of one
question. -/
def pageSel (ss : St) (dim concept : String) : Sel :=
  (widgetPass (prepState ss (build_question_keys dim concept))
    (build_question_keys dim concept)).2

/-- One event-free render of a single question together with the response
recorded into `responses_raw`. -/
def questionStep (ss : St) (dim concept : String) : St × Option Int :=
  let keys := build_question_keys dim concept
  let ss1 := prepState ss keys
  let w := widgetPass ss1 keys
  let ss3 := autoPass w.1 keys w.2
  let ss4 := render_override_controls ss3 keys false
  let ss5 := render_enable_override_button ss4 keys false
  (ss5, questionResp ss5 keys w.2)

/-- Event-free render of the questions of one dimension, in order, collecting
`(concept, response)` pairs.  Python's per-dimension response dict is modelled
as an association list; under the spec §3 invariant (concepts unique per
dimension) the two agree. -/
def evalDim (ss : St) (dim : String) : List String → St × List (String × Option Int)
  | [] => (ss, [])
  | concept :: rest =>
    let step := questionStep ss dim concept
    let tail := evalDim step.1 dim rest
    (tail.1, (concept, step.2) :: tail.2)

/-- Event-free render of all questions of the bank, dimension by dimension. -/
def evalQuestions (ss : St) : List (String × List String) →
    St × List (String × List (String × Option Int))
  | [] => (ss, [])
  | (dim, cs) :: rest =>
    let d := evalDim ss dim cs
    let tail := evalQuestions d.1 rest
    (tail.1, (dim, d.2) :: tail.2)

/-- count_completed_answers from the source: the number of questions whose
stored level key holds a valid level. -/
def count_completed_answers (ss : St) (bank : List (String × List String)) : Nat :=
  (bank.map (fun p =>
    p.2.countP (fun concept =>
      is_valid_level (getV ss (SKey.level p.1 concept))))).sum

/-- ownedKeys lists the eight per-question session keys, in the order
`reset_all_state` clears them. -/
def ownedKeys (dim concept : String) : List SKey :=
  [SKey.level dim concept, SKey.overrideFlag dim concept,
   SKey.overrideLevel dim concept,
   SKey.helpItem dim concept CItem.a, SKey.helpItem dim concept CItem.b,
   SKey.helpItem dim concept CItem.c, SKey.helpItem dim concept CItem.rt,
   SKey.noneBox dim concept]

/-- reset_all_state from the source: pop the eight owned keys of every
question of the bank (nested loops, linearised here in the same order), then
pop the four page-level keys. -/
def reset_all_state (ss : St) (bank : List (String × List String)) : St :=
  ((bank.flatMap (fun p => p.2.flatMap (fun concept => ownedKeys p.1 concept)))
      ++ [SKey.named "company_name_loaded", SKey.named "auto_loaded_signature",
          SKey.named "answers_uploader",
          SKey.named "force_questionnaire_reload"]).foldl eraseK ss

/-- Label pushed onto the missing list for an absent response. -/
def missingLabel (dim concept : String) : String := dim ++ " → " ++ concept

/-- Missing list built from `responses_raw` after the question loop: one label
per absent value, in bank order. -/
def missingOf (resp : List (String × List (String × Option Int))) : List String :=
  resp.flatMap (fun p =>
    p.2.filterMap (fun q =>
      if q.2 = Option.none then some (missingLabel p.1 q.1) else Option.none))

/-- Result of one full event-free evaluation of the questionnaire page. -/
structure PageResult where
  finalState : St
  responses : List (String × List (String × Option Int))
  missing : List String
  completedShown : Nat
  totalShown : Nat

/-- totalQuestions: `sum(len(v) for v in question_bank.values())`. -/
def totalQuestions (bank : List (String × List String)) : Nat :=
  (bank.map (fun p => p.2.length)).sum

/-- render_questionnaire_page from the source, restricted to one full
event-free evaluation (no reset / button / import events; a truthy reload
flag would rerun immediately, and the completed run pops it first).  The
progress numbers are computed before the question loop, exactly as in the
source; the missing list is derived from the collected responses after it. -/
def render_questionnaire_page (ss : St) (bank : List (String × List String)) :
    PageResult :=
  let ss0 := eraseK ss (SKey.named "force_questionnaire_reload")
  let completed := count_completed_answers ss0 bank
  let out := evalQuestions ss0 bank
  { finalState := out.1
    responses := out.2
    missing := missingOf out.2
    completedShown := completed
    totalShown := totalQuestions bank }

/-- Bank well-formedness from spec §3: dimension names are unique, and concept
names are unique within each dimension. -/
def WFBank (bank : List (String × List String)) : Prop :=
  (bank.map Prod.fst).Nodup ∧ ∀ p ∈ bank, p.2.Nodup

/-- All question labels of the bank, in order. -/
def allLabels (bank : List (String × List String)) : List String :=
  bank.flatMap (fun p => p.2.map (fun concept => missingLabel p.1 concept))

@[simp]
theorem setK_self (ss : St) (k : SKey) (v : PyVal) : setK ss k v k = some v := by
  simp [setK]

theorem setK_ne {ss : St} {v : PyVal} {k k2 : SKey} (h : k2 ≠ k) :
    setK ss k v k2 = ss k2 := by
  simp [setK, h]

@[simp]
theorem eraseK_self (ss : St) (k : SKey) : eraseK ss k k = Option.none := by
  simp [eraseK]

theorem eraseK_ne {ss : St} {k k2 : SKey} (h : k2 ≠ k) :
    eraseK ss k k2 = ss k2 := by
  simp [eraseK, h]

theorem getV_setK_ne {ss : St} {v : PyVal} {k k2 : SKey} (h : k2 ≠ k) :
    getV (setK ss k v) k2 = getV ss k2 := by
  simp [getV, setK_ne h]

@[simp]
theorem getV_setK_self (ss : St) (k : SKey) (v : PyVal) :
    getV (setK ss k v) k = v := by
  simp [getV]

theorem getV_eraseK_ne {ss : St} {k k2 : SKey} (h : k2 ≠ k) :
    getV (eraseK ss k) k2 = getV ss k2 := by
  simp [getV, eraseK_ne h]

@[simp]
theorem getV_eraseK_self (ss : St) (k : SKey) :
    getV (eraseK ss k) k = PyVal.vnone := by
  simp [getV]

theorem cbVal_setK_ne {ss : St} {v : PyVal} {k k2 : SKey} (h : k2 ≠ k) :
    cbVal (setK ss k v) k2 = cbVal ss k2 := by
  simp [cbVal, setK_ne h]

@[simp]
theorem cbVal_setK_self (ss : St) (k : SKey) (b : Bool) :
    cbVal (setK ss k (PyVal.vbool b)) k = b := by
  simp [cbVal]

/-- to_level always lands in VALID_LEVELS when the default does; the source
always passes LEVEL_DEFAULT = 2. -/
theorem to_level_mem (v : PyVal) :
    VALID_LEVELS.contains (to_level v LEVEL_DEFAULT) = true := by
  unfold to_level
  cases pyParseInt (pyStr v) with
  | none => decide
  | some n =>
    show VALID_LEVELS.contains
      (if VALID_LEVELS.contains n = true then n else LEVEL_DEFAULT) = true
    by_cases h : VALID_LEVELS.contains n = true
    · rw [if_pos h]; exact h
    · rw [if_neg h]; decide

/-- Every level the checklist rule produces is a valid level. -/
theorem compute_all_valid (nne a b c rt : Bool) :
    (compute_level_from_checklist nne a b c rt).all
      (fun l => VALID_LEVELS.contains l) = true := by
  revert nne a b c rt
  decide

theorem compute_mem {nne a b c rt : Bool} {l : Int}
    (h : compute_level_from_checklist nne a b c rt = some l) :
    VALID_LEVELS.contains l = true := by
  have h2 := compute_all_valid nne a b c rt
  rw [h] at h2
  simpa using h2

/-- The checklist rule yields a level exactly when something is selected
without contradiction. -/
theorem compute_isSome (nne a b c rt : Bool) :
    (compute_level_from_checklist nne a b c rt).isSome
      = ((nne || a || b || c || rt) && !(nne && (a || b || c || rt))) := by
  revert nne a b c rt
  decide

theorem normalize1_ne {ss : St} {k k2 : SKey} (h : k2 ≠ k) :
    normalize1 ss k k2 = ss k2 := by
  unfold normalize1
  cases hv : ss k with
  | none => rfl
  | some v => exact setK_ne h

theorem normalize_ne {ss : St} {keys : QuestionKeys} {k : SKey}
    (ha : k ≠ keys.aKey) (hb : k ≠ keys.bKey) (hc : k ≠ keys.cKey)
    (hrt : k ≠ keys.rtKey) (hn : k ≠ keys.noneKey) :
    normalize_checkbox_state ss keys k = ss k := by
  unfold normalize_checkbox_state
  rw [normalize1_ne hn, normalize1_ne hrt, normalize1_ne hc,
    normalize1_ne hb, normalize1_ne ha]

theorem rehydrate_ne {ss : St} {keys : QuestionKeys} {level : Int} {k : SKey}
    (ha : k ≠ keys.aKey) (hb : k ≠ keys.bKey) (hc : k ≠ keys.cKey)
    (hrt : k ≠ keys.rtKey) (hn : k ≠ keys.noneKey) :
    rehydrate_checkboxes_from_level ss keys level k = ss k := by
  unfold rehydrate_checkboxes_from_level
  split_ifs <;>
    simp only [setK_ne ha, setK_ne hb, setK_ne hc, setK_ne hrt, setK_ne hn]

theorem prep_ne {ss : St} {keys : QuestionKeys} {k : SKey}
    (ha : k ≠ keys.aKey) (hb : k ≠ keys.bKey) (hc : k ≠ keys.cKey)
    (hrt : k ≠ keys.rtKey) (hn : k ≠ keys.noneKey) :
    prepState ss keys k = ss k := by
  unfold prepState
  split
  · rw [rehydrate_ne ha hb hc hrt hn, normalize_ne ha hb hc hrt hn]
  · rw [normalize_ne ha hb hc hrt hn]

theorem widgetPass_ne {ss : St} {keys : QuestionKeys} {k : SKey}
    (ha : k ≠ keys.aKey) (hb : k ≠ keys.bKey) (hc : k ≠ keys.cKey)
    (hrt : k ≠ keys.rtKey) (hn : k ≠ keys.noneKey) :
    (widgetPass ss keys).1 k = ss k := by
  unfold widgetPass
  simp only [setK_ne ha, setK_ne hb, setK_ne hc, setK_ne hrt, setK_ne hn]

theorem autoPass_ne {ss : St} {keys : QuestionKeys} {sel : Sel} {k : SKey}
    (hq : k ≠ keys.qkey) :
    autoPass ss keys sel k = ss k := by
  unfold autoPass
  split
  · rfl
  · cases compute_level_from_checklist sel.nne sel.a sel.b sel.c sel.rt with
    | none => exact eraseK_ne hq
    | some l => exact setK_ne hq

theorem ensure_ne {ss : St} {keys : QuestionKeys} {k : SKey}
    (ho : k ≠ keys.overrideLevelKey) :
    ensure_override_level_initialized ss keys k = ss k := by
  unfold ensure_override_level_initialized
  cases hv : ss keys.overrideLevelKey with
  | none => exact setK_ne ho
  | some v => exact setK_ne ho

theorem controls_ne {ss : St} {keys : QuestionKeys} {clicked : Bool} {k : SKey}
    (hq : k ≠ keys.qkey) (hol : k ≠ keys.overrideLevelKey)
    (hov : k ≠ keys.overrideKey) :
    render_override_controls ss keys clicked k = ss k := by
  unfold render_override_controls
  split
  · split
    · simp only [eraseK_ne hol, setK_ne hov, setK_ne hq, ensure_ne hol]
    · simp only [setK_ne hq, ensure_ne hol]
  · rfl

theorem enable_ne {ss : St} {keys : QuestionKeys} {clicked : Bool} {k : SKey}
    (hol : k ≠ keys.overrideLevelKey) (hov : k ≠ keys.overrideKey) :
    render_enable_override_button ss keys clicked k = ss k := by
  unfold render_enable_override_button
  split
  · rfl
  · split
    · rw [setK_ne hol, setK_ne hov]
    · rfl

/-- The unclicked enable-override button renders without touching state. -/
theorem enable_false (ss : St) (keys : QuestionKeys) :
    render_enable_override_button ss keys false = ss := by
  unfold render_enable_override_button
  split
  · rfl
  · rfl

theorem controls_false_ne {ss : St} {keys : QuestionKeys} {k : SKey}
    (hq : k ≠ keys.qkey) (hol : k ≠ keys.overrideLevelKey) :
    render_override_controls ss keys false k = ss k := by
  unfold render_override_controls
  split
  · dsimp only
    simp only [Bool.false_eq_true, if_false, setK_ne hq, ensure_ne hol]
  · rfl

/-- The event-free render of a question writes only its eight owned keys. -/
theorem step_frame (ss : St) (dim concept : String) {k : SKey}
    (h : k ∉ ownedKeys dim concept) :
    (questionStep ss dim concept).1 k = ss k := by
  simp only [ownedKeys, List.mem_cons, List.not_mem_nil, or_false, not_or] at h
  obtain ⟨h1, h2, h3, h4, h5, h6, h7, h8⟩ := h
  unfold questionStep
  dsimp only [build_question_keys]
  rw [enable_false, controls_false_ne h1 h3, autoPass_ne h1,
    widgetPass_ne h4 h5 h6 h7 h8, prep_ne h4 h5 h6 h7 h8]

/-- The event-free render of a question never writes its override flag. -/
theorem step_override (ss : St) (dim concept : String) :
    (questionStep ss dim concept).1 (SKey.overrideFlag dim concept)
      = ss (SKey.overrideFlag dim concept) := by
  unfold questionStep
  dsimp only [build_question_keys]
  rw [enable_false, controls_false_ne (by simp) (by simp),
    autoPass_ne (by simp), widgetPass_ne (by simp) (by simp) (by simp)
      (by simp) (by simp),
    prep_ne (by simp) (by simp) (by simp) (by simp) (by simp)]

theorem getV_ensure_ne {ss : St} {keys : QuestionKeys} {k : SKey}
    (h : k ≠ keys.overrideLevelKey) :
    getV (ensure_override_level_initialized ss keys) k = getV ss k := by
  simp [getV, ensure_ne h]

/-- After initialisation the override level key always holds a valid level. -/
theorem ensure_olk (ss : St) (keys : QuestionKeys) :
    ∃ t : Int, VALID_LEVELS.contains t = true ∧
      getV (ensure_override_level_initialized ss keys) keys.overrideLevelKey
        = PyVal.vint t := by
  unfold ensure_override_level_initialized
  cases hv : ss keys.overrideLevelKey with
  | none => exact ⟨LEVEL_DEFAULT, by decide, by simp [getV]⟩
  | some v => exact ⟨to_level v LEVEL_DEFAULT, to_level_mem v, by simp [getV]⟩

/-- Core validation fact: after the automatic-scoring block and the override
controls, the recorded response is present exactly when the stored level key
holds a valid level. -/
theorem post_resp (ss2 : St) (keys : QuestionKeys) (sel : Sel)
    (h1 : keys.overrideKey ≠ keys.qkey)
    (h2 : keys.overrideKey ≠ keys.overrideLevelKey) :
    (questionResp (render_override_controls (autoPass ss2 keys sel) keys false)
        keys sel).isSome
      = is_valid_level (getV (render_override_controls (autoPass ss2 keys sel)
          keys false) keys.qkey) := by
  by_cases hov : truthy (getV ss2 keys.overrideKey) = true
  · have hauto : autoPass ss2 keys sel = ss2 := by simp [autoPass, hov]
    rw [hauto]
    obtain ⟨t, ht, holv⟩ := ensure_olk ss2 keys
    have hctl : render_override_controls ss2 keys false
        = setK (ensure_override_level_initialized ss2 keys) keys.qkey
            (PyVal.vint (pyInt (getV (ensure_override_level_initialized ss2 keys)
              keys.overrideLevelKey))) := by
      simp [render_override_controls, hov]
    rw [hctl, holv]
    have hq : getV (setK (ensure_override_level_initialized ss2 keys) keys.qkey
        (PyVal.vint (pyInt (PyVal.vint t)))) keys.qkey
          = PyVal.vint t := by
      simp [pyInt]
    have hov5 : truthy (getV (setK (ensure_override_level_initialized ss2 keys)
        keys.qkey (PyVal.vint (pyInt (PyVal.vint t)))) keys.overrideKey)
          = true := by
      rw [getV_setK_ne h1, getV_ensure_ne h2]
      exact hov
    have hvt : is_valid_level (PyVal.vint t) = true := by
      simpa [is_valid_level] using ht
    simp [questionResp, hq, hov5, hvt]
  · have hovf : truthy (getV ss2 keys.overrideKey) = false := by
      simpa using hov
    cases hcmp : compute_level_from_checklist sel.nne sel.a sel.b sel.c sel.rt with
    | none =>
      have hauto : autoPass ss2 keys sel = eraseK ss2 keys.qkey := by
        simp [autoPass, hovf, hcmp]
      rw [hauto]
      have hctl : render_override_controls (eraseK ss2 keys.qkey) keys false
          = eraseK ss2 keys.qkey := by
        simp [render_override_controls, getV_eraseK_ne h1, hovf]
      rw [hctl]
      simp [questionResp, getV_eraseK_ne h1, hovf, is_valid_level]
    | some l =>
      have hauto : autoPass ss2 keys sel = setK ss2 keys.qkey (PyVal.vint l) := by
        simp [autoPass, hovf, hcmp]
      rw [hauto]
      have hctl : render_override_controls (setK ss2 keys.qkey (PyVal.vint l))
          keys false = setK ss2 keys.qkey (PyVal.vint l) := by
        simp [render_override_controls, getV_setK_ne h1, hovf]
      rw [hctl]
      have hvalid : is_valid_level (PyVal.vint l) = true := by
        simpa [is_valid_level] using compute_mem hcmp
      have hsel : (anySelected sel && !contradictory sel) = true := by
        have h5 := compute_isSome sel.nne sel.a sel.b sel.c sel.rt
        rw [hcmp] at h5
        simp only [Option.isSome_some] at h5
        simpa [anySelected, contradictory] using h5.symm
      simp [questionResp, getV_setK_ne h1, hovf, hvalid, hsel]

/-- The recorded response of an event-free question render is present exactly
when the final stored level is valid. -/
theorem step_resp_isSome (ss : St) (dim concept : String) :
    ((questionStep ss dim concept).2).isSome
      = is_valid_level (getV (questionStep ss dim concept).1
          (SKey.level dim concept)) := by
  unfold questionStep
  dsimp only [build_question_keys]
  rw [enable_false]
  exact post_resp _ _ _ (by simp) (by simp)

theorem evalDim_frame (dim : String) :
    ∀ (cs : List String) (ss : St) (k : SKey),
      (∀ con ∈ cs, k ∉ ownedKeys dim con) → (evalDim ss dim cs).1 k = ss k := by
  intro cs
  induction cs with
  | nil => intro ss k _; rfl
  | cons con rest ih =>
    intro ss k h
    show (evalDim (questionStep ss dim con).1 dim rest).1 k = ss k
    rw [ih _ _ (fun c2 hc2 => h c2 (List.mem_cons_of_mem _ hc2)),
      step_frame _ _ _ (h con (List.mem_cons_self _ _))]

theorem evalDim_len (dim : String) :
    ∀ (cs : List String) (ss : St), ((evalDim ss dim cs).2).length = cs.length := by
  intro cs
  induction cs with
  | nil => intro ss; rfl
  | cons con rest ih =>
    intro ss
    show ((con, (questionStep ss dim con).2)
        :: (evalDim (questionStep ss dim con).1 dim rest).2).length = rest.length + 1
    rw [List.length_cons, ih]

theorem evalDim_count (dim : String) :
    ∀ (cs : List String) (ss : St), cs.Nodup →
      ((evalDim ss dim cs).2).countP (fun p => p.2.isSome)
        = cs.countP (fun con =>
            is_valid_level (getV (evalDim ss dim cs).1 (SKey.level dim con))) := by
  intro cs
  induction cs with
  | nil => intro ss _; rfl
  | cons con rest ih =>
    intro ss hnd
    obtain ⟨hnm, hndr⟩ := List.nodup_cons.mp hnd
    have hframe : ∀ c2 ∈ rest, SKey.level dim con ∉ ownedKeys dim c2 := by
      intro c2 hc2
      simp only [ownedKeys, List.mem_cons, List.not_mem_nil, or_false]
      intro hor
      rcases hor with h | h | h | h | h | h | h | h <;> simp at h
      subst h
      exact hnm hc2
    have hcon : getV (evalDim (questionStep ss dim con).1 dim rest).1
        (SKey.level dim con)
          = getV (questionStep ss dim con).1 (SKey.level dim con) := by
      unfold getV
      rw [evalDim_frame dim rest _ _ hframe]
    show ((con, (questionStep ss dim con).2)
          :: (evalDim (questionStep ss dim con).1 dim rest).2).countP
            (fun p => p.2.isSome)
        = (con :: rest).countP (fun c2 =>
            is_valid_level (getV (evalDim (questionStep ss dim con).1 dim rest).1
              (SKey.level dim c2)))
    rw [List.countP_cons, List.countP_cons]
    rw [ih _ hndr]
    have hhead : ((questionStep ss dim con).2).isSome
        = is_valid_level (getV (evalDim (questionStep ss dim con).1 dim rest).1
            (SKey.level dim con)) := by
      rw [hcon, step_resp_isSome]
    rw [hhead]

theorem level_not_mem_owned {d c d2 c2 : String} (h : ¬(d = d2 ∧ c = c2)) :
    SKey.level d c ∉ ownedKeys d2 c2 := by
  simp only [ownedKeys, List.mem_cons, List.not_mem_nil, or_false]
  intro hor
  rcases hor with h2 | h2 | h2 | h2 | h2 | h2 | h2 | h2 <;> simp at h2
  exact h h2

theorem respSplit (dim : String) :
    ∀ (rs : List (String × Option Int)),
      (rs.filterMap (fun q => if q.2 = Option.none
          then some (missingLabel dim q.1) else Option.none)).length
        + rs.countP (fun p => p.2.isSome) = rs.length := by
  intro rs
  induction rs with
  | nil => rfl
  | cons q rest ih =>
    cases hq : q.2 with
    | none =>
      simp [List.filterMap_cons, List.countP_cons, hq]
      omega
    | some v =>
      simp [List.filterMap_cons, List.countP_cons, hq]
      omega

theorem evalQuestions_frame :
    ∀ (bank : List (String × List String)) (ss : St) (k : SKey),
      (∀ p ∈ bank, ∀ con ∈ p.2, k ∉ ownedKeys p.1 con) →
      (evalQuestions ss bank).1 k = ss k := by
  intro bank
  induction bank with
  | nil => intro ss k _; rfl
  | cons p rest ih =>
    intro ss k h
    show (evalQuestions (evalDim ss p.1 p.2).1 rest).1 k = ss k
    rw [ih _ _ (fun p2 hp2 => h p2 (List.mem_cons_of_mem _ hp2)),
      evalDim_frame _ _ _ _ (h p (List.mem_cons_self _ _))]

theorem count_cons (ss : St) (dim : String) (cs : List String)
    (rest : List (String × List String)) :
    count_completed_answers ss ((dim, cs) :: rest)
      = cs.countP (fun con => is_valid_level (getV ss (SKey.level dim con)))
        + count_completed_answers ss rest := by
  simp [count_completed_answers]

theorem missingOf_cons (dim : String) (rs : List (String × Option Int))
    (rest : List (String × List (String × Option Int))) :
    missingOf ((dim, rs) :: rest)
      = rs.filterMap (fun q => if q.2 = Option.none
          then some (missingLabel dim q.1) else Option.none) ++ missingOf rest := by
  simp [missingOf]

/-- Completed count on the post-evaluation state plus the missing count
equals the number of questions. -/
theorem evalQuestions_count :
    ∀ (bank : List (String × List String)) (ss : St), WFBank bank →
      count_completed_answers (evalQuestions ss bank).1 bank
        + (missingOf (evalQuestions ss bank).2).length
        = totalQuestions bank := by
  intro bank
  induction bank with
  | nil => intro ss _; rfl
  | cons p rest ih =>
    intro ss hwf
    obtain ⟨hdims, hcs⟩ := hwf
    rw [List.map_cons, List.nodup_cons] at hdims
    have hwfrest : WFBank rest :=
      ⟨hdims.2, fun p2 hp2 => hcs p2 (List.mem_cons_of_mem _ hp2)⟩
    have hcsnd : p.2.Nodup := hcs p (List.mem_cons_self _ _)
    obtain ⟨dim, cs⟩ := p
    show count_completed_answers
        (evalQuestions (evalDim ss dim cs).1 rest).1 ((dim, cs) :: rest)
      + (missingOf ((dim, (evalDim ss dim cs).2)
          :: (evalQuestions (evalDim ss dim cs).1 rest).2)).length
      = totalQuestions ((dim, cs) :: rest)
    rw [count_cons, missingOf_cons, List.length_append]
    have hframe : ∀ con ∈ cs,
        getV (evalQuestions (evalDim ss dim cs).1 rest).1 (SKey.level dim con)
          = getV (evalDim ss dim cs).1 (SKey.level dim con) := by
      intro con _
      unfold getV
      rw [evalQuestions_frame rest _ _ ?hnm]
      case hnm =>
        intro p2 hp2 con2 _
        refine level_not_mem_owned ?_
        rintro ⟨hd, _⟩
        have hmem : p2.1 ∈ List.map Prod.fst rest := List.mem_map_of_mem _ hp2
        rw [← hd] at hmem
        exact hdims.1 hmem
    have hcount : cs.countP (fun con => is_valid_level
        (getV (evalQuestions (evalDim ss dim cs).1 rest).1 (SKey.level dim con)))
      = ((evalDim ss dim cs).2).countP (fun q => q.2.isSome) := by
      rw [List.countP_congr (fun con hcon => by rw [hframe con hcon]),
        evalDim_count dim cs ss hcsnd]
    have hsplit := respSplit dim ((evalDim ss dim cs).2)
    have hlen := evalDim_len dim cs ss
    have hrest := ih (evalDim ss dim cs).1 hwfrest
    have htot : totalQuestions ((dim, cs) :: rest)
        = cs.length + totalQuestions rest := by
      simp [totalQuestions]
    rw [hcount, htot]
    omega

theorem foldl_eraseK (l : List SKey) :
    ∀ (ss : St) (k : SKey),
      (l.foldl eraseK ss) k = if k ∈ l then Option.none else ss k := by
  induction l with
  | nil => intro ss k; simp
  | cons x xs ih =>
    intro ss k
    show (xs.foldl eraseK (eraseK ss x)) k = _
    rw [ih]
    by_cases hx : k ∈ xs
    · simp [hx]
    · by_cases hk : k = x
      · subst hk; simp [hx]
      · simp [hx, hk, eraseK_ne hk]

theorem mem_owned_unique {k : SKey} {d c d2 c2 : String}
    (h1 : k ∈ ownedKeys d c) (h2 : k ∈ ownedKeys d2 c2) : d = d2 ∧ c = c2 := by
  simp only [ownedKeys, List.mem_cons, List.not_mem_nil, or_false] at h1 h2
  rcases h1 with rfl | rfl | rfl | rfl | rfl | rfl | rfl | rfl <;>
    (rcases h2 with h2 | h2 | h2 | h2 | h2 | h2 | h2 | h2 <;> simp_all)

/-- A question whose eight keys are all absent records no response: nothing
is selected, so the automatic pass clears the (absent) level and the final
validation yields an absent value. -/
theorem allNone_step (ss : St) (dim concept : String)
    (h : ∀ k ∈ ownedKeys dim concept, ss k = Option.none) :
    (questionStep ss dim concept).2 = Option.none := by
  have hq := h (SKey.level dim concept) (by simp [ownedKeys])
  have hov := h (SKey.overrideFlag dim concept) (by simp [ownedKeys])
  have ha := h (SKey.helpItem dim concept CItem.a) (by simp [ownedKeys])
  have hb := h (SKey.helpItem dim concept CItem.b) (by simp [ownedKeys])
  have hc := h (SKey.helpItem dim concept CItem.c) (by simp [ownedKeys])
  have hrt := h (SKey.helpItem dim concept CItem.rt) (by simp [ownedKeys])
  have hn := h (SKey.noneBox dim concept) (by simp [ownedKeys])
  unfold questionStep questionResp prepState normalize_checkbox_state
    widgetPass autoPass render_override_controls render_enable_override_button
  dsimp only [build_question_keys]
  simp [normalize1, hq, hov, ha, hb, hc, hrt, hn, cbVal, getV, setK, eraseK,
    truthy, is_valid_level, has_any_checkbox_selected, to_bool,
    compute_level_from_checklist, anySelected, contradictory]

theorem evalDim_allNone (dim : String) :
    ∀ (cs : List String) (ss : St), cs.Nodup →
      (∀ con ∈ cs, ∀ k ∈ ownedKeys dim con, ss k = Option.none) →
      (evalDim ss dim cs).2
        = cs.map (fun con => (con, (Option.none : Option Int))) := by
  intro cs
  induction cs with
  | nil => intro ss _ _; rfl
  | cons con rest ih =>
    intro ss hnd h
    obtain ⟨hnm, hndr⟩ := List.nodup_cons.mp hnd
    have hpres : ∀ con2 ∈ rest, ∀ k ∈ ownedKeys dim con2,
        (questionStep ss dim con).1 k = Option.none := by
      intro con2 hc2 k hk
      rw [step_frame ss dim con ?hout]
      · exact h con2 (List.mem_cons_of_mem _ hc2) k hk
      case hout =>
        intro hmem
        obtain ⟨_, hcc⟩ := mem_owned_unique hmem hk
        exact hnm (hcc ▸ hc2)
    show ((con, (questionStep ss dim con).2)
        :: (evalDim (questionStep ss dim con).1 dim rest).2) = _
    rw [allNone_step ss dim con (h con (List.mem_cons_self _ _)),
      ih _ hndr hpres, List.map_cons]

theorem evalQuestions_allNone :
    ∀ (bank : List (String × List String)) (ss : St), WFBank bank →
      (∀ p ∈ bank, ∀ con ∈ p.2, ∀ k ∈ ownedKeys p.1 con, ss k = Option.none) →
      (evalQuestions ss bank).2
        = bank.map (fun p =>
            (p.1, p.2.map (fun con => (con, (Option.none : Option Int))))) := by
  intro bank
  induction bank with
  | nil => intro ss _ _; rfl
  | cons p rest ih =>
    intro ss hwf h
    obtain ⟨hdims, hcs⟩ := hwf
    rw [List.map_cons, List.nodup_cons] at hdims
    have hwfrest : WFBank rest :=
      ⟨hdims.2, fun p2 hp2 => hcs p2 (List.mem_cons_of_mem _ hp2)⟩
    have hpres : ∀ p2 ∈ rest, ∀ con2 ∈ p2.2, ∀ k ∈ ownedKeys p2.1 con2,
        (evalDim ss p.1 p.2).1 k = Option.none := by
      intro p2 hp2 con2 hc2 k hk
      rw [evalDim_frame p.1 p.2 ss k ?hout]
      · exact h p2 (List.mem_cons_of_mem _ hp2) con2 hc2 k hk
      case hout =>
        intro con hcon hmem
        obtain ⟨hdd, _⟩ := mem_owned_unique hmem hk
        have hmem2 : p2.1 ∈ List.map Prod.fst rest := List.mem_map_of_mem _ hp2
        rw [← hdd] at hmem2
        exact hdims.1 hmem2
    show ((p.1, (evalDim ss p.1 p.2).2)
        :: (evalQuestions (evalDim ss p.1 p.2).1 rest).2) = _
    rw [evalDim_allNone p.1 p.2 ss (hcs p (List.mem_cons_self _ _))
        (h p (List.mem_cons_self _ _)),
      ih _ hwfrest hpres, List.map_cons]

theorem filterMap_absent (dim : String) (cs : List String) :
    (cs.map (fun con => (con, (Option.none : Option Int)))).filterMap
        (fun q => if q.2 = Option.none
          then some (missingLabel dim q.1) else Option.none)
      = cs.map (fun con => missingLabel dim con) := by
  induction cs with
  | nil => rfl
  | cons con rest ih => simp [List.filterMap_cons, ih]

theorem missingOf_allAbsent (bank : List (String × List String)) :
    missingOf (bank.map (fun p =>
        (p.1, p.2.map (fun con => (con, (Option.none : Option Int))))))
      = allLabels bank := by
  unfold missingOf allLabels
  rw [List.flatMap_map]
  congr 1
  funext p
  exact filterMap_absent p.1 p.2

theorem questionResp_some_iff (ss : St) (keys : QuestionKeys) (sel : Sel)
    (n : Int) :
    questionResp ss keys sel = some n ↔
      (is_valid_level (getV ss keys.qkey) = true
        ∧ (truthy (getV ss keys.overrideKey) = true
            ∨ (anySelected sel = true ∧ contradictory sel = false))
        ∧ pyInt (getV ss keys.qkey) = n) := by
  unfold questionResp
  by_cases hv : is_valid_level (getV ss keys.qkey) = true
  · by_cases ho : truthy (getV ss keys.overrideKey) = true
    · simp [hv, ho]
    · simp only [Bool.not_eq_true] at ho
      by_cases ha : anySelected sel = true
      · by_cases hcontr : contradictory sel = true
        · simp [hv, ho, ha, hcontr]
        · simp only [Bool.not_eq_true] at hcontr
          simp [hv, ho, ha, hcontr]
      · simp only [Bool.not_eq_true] at ha
        simp [hv, ho, ha]
  · simp only [Bool.not_eq_true] at hv
    simp [hv]

theorem step_resp_eq (ss : St) (dim concept : String) :
    (questionStep ss dim concept).2
      = questionResp (questionStep ss dim concept).1
          (build_question_keys dim concept) (pageSel ss dim concept) := rfl

theorem enable_true_override {ss : St} {keys : QuestionKeys}
    (h2 : keys.overrideKey ≠ keys.overrideLevelKey) :
    truthy (getV (render_enable_override_button ss keys true)
      keys.overrideKey) = true := by
  unfold render_enable_override_button
  split
  · assumption
  · rw [if_pos rfl, getV_setK_ne h2, getV_setK_self]
    rfl

theorem controls_true_disable {ss : St} {keys : QuestionKeys}
    (h : truthy (getV ss keys.overrideKey) = true)
    (h2 : keys.overrideKey ≠ keys.overrideLevelKey) :
    render_override_controls ss keys true keys.overrideLevelKey = Option.none
    ∧ render_override_controls ss keys true keys.overrideKey
        = some (PyVal.vbool false) := by
  unfold render_override_controls
  rw [if_pos h]
  rw [if_pos rfl]
  constructor
  · exact eraseK_self _ _
  · rw [eraseK_ne h2, setK_self]

/-- When something is selected and the override flag is falsy, the event-free
render stores exactly the level the checklist rule computes from the selection
the widgets read (or clears it when the rule yields none). -/
theorem step_qkey_auto (S : St) (dim concept : String)
    (hA : has_any_checkbox_selected
        (normalize_checkbox_state S (build_question_keys dim concept))
        (build_question_keys dim concept) = true)
    (hov : truthy (getV S (build_question_keys dim concept).overrideKey)
      = false) :
    (questionStep S dim concept).1 (build_question_keys dim concept).qkey
      = Option.map PyVal.vint (compute_level_from_checklist
          (pageSel S dim concept).nne (pageSel S dim concept).a
          (pageSel S dim concept).b (pageSel S dim concept).c
          (pageSel S dim concept).rt) := by
  have hprep : prepState S (build_question_keys dim concept)
      = normalize_checkbox_state S (build_question_keys dim concept) := by
    unfold prepState
    simp [hA]
  have hov2 : truthy (getV (widgetPass
      (normalize_checkbox_state S (build_question_keys dim concept))
      (build_question_keys dim concept)).1
        (build_question_keys dim concept).overrideKey) = false := by
    unfold getV
    rw [widgetPass_ne (by simp [build_question_keys]) (by simp [build_question_keys])
      (by simp [build_question_keys]) (by simp [build_question_keys])
      (by simp [build_question_keys]),
      normalize_ne (by simp [build_question_keys]) (by simp [build_question_keys])
      (by simp [build_question_keys]) (by simp [build_question_keys])
      (by simp [build_question_keys])]
    exact hov
  unfold questionStep pageSel
  dsimp only
  rw [enable_false, hprep]
  cases hcmp : compute_level_from_checklist
      (widgetPass (normalize_checkbox_state S (build_question_keys dim concept))
        (build_question_keys dim concept)).2.nne
      (widgetPass (normalize_checkbox_state S (build_question_keys dim concept))
        (build_question_keys dim concept)).2.a
      (widgetPass (normalize_checkbox_state S (build_question_keys dim concept))
        (build_question_keys dim concept)).2.b
      (widgetPass (normalize_checkbox_state S (build_question_keys dim concept))
        (build_question_keys dim concept)).2.c
      (widgetPass (normalize_checkbox_state S (build_question_keys dim concept))
        (build_question_keys dim concept)).2.rt with
  | none =>
    have hauto : autoPass (widgetPass
        (normalize_checkbox_state S (build_question_keys dim concept))
        (build_question_keys dim concept)).1 (build_question_keys dim concept)
          (widgetPass (normalize_checkbox_state S (build_question_keys dim concept))
            (build_question_keys dim concept)).2
        = eraseK (widgetPass
            (normalize_checkbox_state S (build_question_keys dim concept))
            (build_question_keys dim concept)).1
          (build_question_keys dim concept).qkey := by
      simp [autoPass, hov2, hcmp]
    rw [hauto]
    have hctl : render_override_controls (eraseK (widgetPass
        (normalize_checkbox_state S (build_question_keys dim concept))
        (build_question_keys dim concept)).1
          (build_question_keys dim concept).qkey)
        (build_question_keys dim concept) false
      = eraseK (widgetPass
          (normalize_checkbox_state S (build_question_keys dim concept))
          (build_question_keys dim concept)).1
        (build_question_keys dim concept).qkey := by
      simp [render_override_controls, getV_eraseK_ne
        (show (build_question_keys dim concept).overrideKey
          ≠ (build_question_keys dim concept).qkey by simp [build_question_keys]),
        hov2]
    rw [hctl, eraseK_self]
    rfl
  | some l =>
    have hauto : autoPass (widgetPass
        (normalize_checkbox_state S (build_question_keys dim concept))
        (build_question_keys dim concept)).1 (build_question_keys dim concept)
          (widgetPass (normalize_checkbox_state S (build_question_keys dim concept))
            (build_question_keys dim concept)).2
        = setK (widgetPass
            (normalize_checkbox_state S (build_question_keys dim concept))
            (build_question_keys dim concept)).1
          (build_question_keys dim concept).qkey (PyVal.vint l) := by
      simp [autoPass, hov2, hcmp]
    rw [hauto]
    have hctl : render_override_controls (setK (widgetPass
        (normalize_checkbox_state S (build_question_keys dim concept))
        (build_question_keys dim concept)).1
          (build_question_keys dim concept).qkey (PyVal.vint l))
        (build_question_keys dim concept) false
      = setK (widgetPass
          (normalize_checkbox_state S (build_question_keys dim concept))
          (build_question_keys dim concept)).1
        (build_question_keys dim concept).qkey (PyVal.vint l) := by
      simp [render_override_controls, getV_setK_ne
        (show (build_question_keys dim concept).overrideKey
          ≠ (build_question_keys dim concept).qkey by simp [build_question_keys]),
        hov2]
    rw [hctl, setK_self]
    rfl

/-- C1: compute_level_from_checklist returns no level iff nothing is selected
or `none` is combined with another item; it returns level 1 iff exactly `none`
is selected; in every remaining case it returns exactly the value of the
scoring function compute_suggested_level(a, b, c, rt). -/
theorem claim_C1 (nne a b c rt : Bool) :
    (compute_level_from_checklist nne a b c rt = Option.none
      ↔ ((nne || a || b || c || rt) = false
          ∨ (nne && (a || b || c || rt)) = true))
    ∧ (compute_level_from_checklist nne a b c rt = some 1
      ↔ (nne = true ∧ a = false ∧ b = false ∧ c = false ∧ rt = false))
    ∧ ((nne = false ∧ (a || b || c || rt) = true)
      → compute_level_from_checklist nne a b c rt
          = some (compute_suggested_level a b c rt)) := by
  revert nne a b c rt
  decide

/-- C1 witness: a single selected item delegates to the scoring function. -/
theorem claim_C1_witness :
    compute_level_from_checklist false true false false false
      = some (compute_suggested_level true false false false) :=
  (claim_C1 false true false false false).2.2 ⟨rfl, rfl⟩

/-- C2: after one event-free render of a question, the recorded value is a
level n exactly when the final stored level is valid, equals n, and either
the override flag (unchanged by the render) is truthy or the widget selection
is non-empty and non-contradictory. -/
theorem claim_C2 (ss : St) (dim concept : String) (n : Int) :
    (questionStep ss dim concept).2 = some n ↔
      (is_valid_level (getV (questionStep ss dim concept).1
          (build_question_keys dim concept).qkey) = true
        ∧ (truthy (getV ss (build_question_keys dim concept).overrideKey) = true
            ∨ (anySelected (pageSel ss dim concept) = true
              ∧ contradictory (pageSel ss dim concept) = false))
        ∧ pyInt (getV (questionStep ss dim concept).1
            (build_question_keys dim concept).qkey) = n) := by
  have hov : getV (questionStep ss dim concept).1
      (build_question_keys dim concept).overrideKey
        = getV ss (build_question_keys dim concept).overrideKey := by
    unfold getV
    dsimp only [build_question_keys]
    rw [step_override]
  rw [step_resp_eq ss dim concept, questionResp_some_iff, hov]

/-- C5: for every level L in {2,3,4,5}, rehydration followed by the checklist
rule on the reconstructed selection reproduces L exactly. -/
theorem claim_C5 (ss : St) (dim concept : String) (L : Int)
    (hL : L = 2 ∨ L = 3 ∨ L = 4 ∨ L = 5) :
    compute_level_from_checklist
      (to_bool (getV (rehydrate_checkboxes_from_level ss
        (build_question_keys dim concept) L)
        (build_question_keys dim concept).noneKey))
      (to_bool (getV (rehydrate_checkboxes_from_level ss
        (build_question_keys dim concept) L)
        (build_question_keys dim concept).aKey))
      (to_bool (getV (rehydrate_checkboxes_from_level ss
        (build_question_keys dim concept) L)
        (build_question_keys dim concept).bKey))
      (to_bool (getV (rehydrate_checkboxes_from_level ss
        (build_question_keys dim concept) L)
        (build_question_keys dim concept).cKey))
      (to_bool (getV (rehydrate_checkboxes_from_level ss
        (build_question_keys dim concept) L)
        (build_question_keys dim concept).rtKey))
      = some L := by
  rcases hL with rfl | rfl | rfl | rfl <;>
    simp [rehydrate_checkboxes_from_level, build_question_keys, getV, setK,
      to_bool, compute_level_from_checklist, compute_suggested_level]

/-- C5 witness: rehydrating level 3 and re-evaluating yields level 3. -/
theorem claim_C5_witness :
    compute_level_from_checklist
      (to_bool (getV (rehydrate_checkboxes_from_level (fun _ => Option.none)
        (build_question_keys "d" "c") 3)
        (build_question_keys "d" "c").noneKey))
      (to_bool (getV (rehydrate_checkboxes_from_level (fun _ => Option.none)
        (build_question_keys "d" "c") 3)
        (build_question_keys "d" "c").aKey))
      (to_bool (getV (rehydrate_checkboxes_from_level (fun _ => Option.none)
        (build_question_keys "d" "c") 3)
        (build_question_keys "d" "c").bKey))
      (to_bool (getV (rehydrate_checkboxes_from_level (fun _ => Option.none)
        (build_question_keys "d" "c") 3)
        (build_question_keys "d" "c").cKey))
      (to_bool (getV (rehydrate_checkboxes_from_level (fun _ => Option.none)
        (build_question_keys "d" "c") 3)
        (build_question_keys "d" "c").rtKey))
      = some 3 :=
  claim_C5 (fun _ => Option.none) "d" "c" 3 (Or.inr (Or.inl rfl))

/-- C8 counterexample: the claim says every value other than bools, numeric
0/1 and the four listed strings coerces to false, but the source also accepts
the string "y" and any nonzero numeric. -/
theorem claim_C8_cex :
    to_bool (PyVal.vstr "y") = true ∧ to_bool (PyVal.vint 2) = true := by
  decide

/-- C8 amended: to_bool maps booleans to themselves, None to false, a numeric
to true exactly when it is nonzero, and a string to true exactly when its
trimmed lowercased form is one of "true", "1", "yes", "y", "on"; every other
value coerces to false. -/
theorem claim_C8 :
    (∀ b : Bool, to_bool (PyVal.vbool b) = b)
    ∧ to_bool PyVal.vnone = false
    ∧ (∀ n : Int, to_bool (PyVal.vint n) = true ↔ n ≠ 0)
    ∧ (∀ s : String, to_bool (PyVal.vstr s) = true
        ↔ pyStripLower s ∈ (["true", "1", "yes", "y", "on"] : List String)) := by
  refine ⟨fun b => rfl, rfl, fun n => ?_, fun s => ?_⟩
  · simp [to_bool]
  · simp [to_bool]

/-- C9: malformed stored values recover locally: an unrecognised string
coerces to false, an unparseable override level falls back to the default 2,
a parsed but out-of-range override level also falls back to the default 2,
the coerced override level is always a valid level, the initialised override
level key always holds a valid level, and an invalid stored level makes the
final value absent rather than failing. -/
theorem claim_C9 :
    (∀ s : String, pyStripLower s ∉ (["true", "1", "yes", "y", "on"] : List String)
        → to_bool (PyVal.vstr s) = false)
    ∧ (∀ v : PyVal, pyParseInt (pyStr v) = Option.none
        → to_level v LEVEL_DEFAULT = LEVEL_DEFAULT)
    ∧ (∀ (v : PyVal) (n : Int), pyParseInt (pyStr v) = some n
        → n ∉ VALID_LEVELS → to_level v LEVEL_DEFAULT = LEVEL_DEFAULT)
    ∧ (∀ v : PyVal, to_level v LEVEL_DEFAULT ∈ VALID_LEVELS)
    ∧ (∀ (ss : St) (dim concept : String), ∃ t : Int, t ∈ VALID_LEVELS ∧
        ensure_override_level_initialized ss (build_question_keys dim concept)
          (build_question_keys dim concept).overrideLevelKey
            = some (PyVal.vint t))
    ∧ (∀ (ss : St) (keys : QuestionKeys) (sel : Sel),
        is_valid_level (getV ss keys.qkey) = false
          → questionResp ss keys sel = Option.none) := by
  refine ⟨fun s h => ?_, fun v h => ?_, fun v n h hn => ?_, fun v => ?_,
    fun ss dim concept => ?_, fun ss keys sel h => ?_⟩
  · simp [to_bool, h]
  · unfold to_level
    rw [h]
  · unfold to_level
    rw [h]
    show (if VALID_LEVELS.contains n = true then n else LEVEL_DEFAULT)
      = LEVEL_DEFAULT
    rw [if_neg (by simpa using hn)]
  · simpa using to_level_mem v
  · unfold ensure_override_level_initialized
    cases hv : ss (build_question_keys dim concept).overrideLevelKey with
    | none => exact ⟨LEVEL_DEFAULT, by decide, by simp⟩
    | some v => exact ⟨to_level v LEVEL_DEFAULT,
        by simpa using to_level_mem v, by simp⟩
  · unfold questionResp
    rw [h]
    simp

/-- C9 witness: an unrecognised stored string coerces to false. -/
theorem claim_C9_witness : to_bool (PyVal.vstr "maybe") = false :=
  claim_C9.1 "maybe" (by decide)

/-- C10: is_valid_level accepts the boolean True (Python's bool is an int and
True equals 1), rejects False, accepts an integer exactly when it lies in
{1,2,3,4,5}, rejects everything else; int(True) is 1; and a stored True at a
level key is counted as a completed answer while False is not. -/
theorem claim_C10 :
    is_valid_level (PyVal.vbool true) = true
    ∧ is_valid_level (PyVal.vbool false) = false
    ∧ (∀ n : Int, is_valid_level (PyVal.vint n) = true
        ↔ (n = 1 ∨ n = 2 ∨ n = 3 ∨ n = 4 ∨ n = 5))
    ∧ (∀ s : String, is_valid_level (PyVal.vstr s) = false)
    ∧ is_valid_level PyVal.vnone = false
    ∧ pyInt (PyVal.vbool true) = 1
    ∧ (∀ (ss : St) (dim concept : String),
        ss (SKey.level dim concept) = some (PyVal.vbool true)
          → count_completed_answers ss [(dim, [concept])] = 1)
    ∧ (∀ (ss : St) (dim concept : String),
        ss (SKey.level dim concept) = some (PyVal.vbool false)
          → count_completed_answers ss [(dim, [concept])] = 0) := by
  refine ⟨rfl, rfl, fun n => ?_, fun s => rfl, rfl, rfl,
    fun ss dim concept h => ?_, fun ss dim concept h => ?_⟩
  · simp [is_valid_level, VALID_LEVELS]
  · simp [count_completed_answers, getV, h, is_valid_level,
      List.countP_cons, VALID_LEVELS]
  · simp [count_completed_answers, getV, h, is_valid_level,
      List.countP_cons, VALID_LEVELS]

/-- C10 witness: a stored boolean True counts as one completed answer. -/
theorem claim_C10_witness :
    count_completed_answers
      (fun k => if k = SKey.level "d" "c" then some (PyVal.vbool true)
        else Option.none) [("d", ["c"])] = 1 :=
  claim_C10.2.2.2.2.2.2.1 _ "d" "c" (by simp)

/-- C3 counterexample: the page counts completed answers before the question
loop runs, so a state holding a checkbox selection but no stored level yields
completed = 0 while the loop then records the answer (missing = 0, total =
1). -/
theorem claim_C3_cex :
    (render_questionnaire_page
        (fun k => if k = SKey.helpItem "d" "c" CItem.a
          then some (PyVal.vbool true) else Option.none)
        [("d", ["c"])]).completedShown
      + (render_questionnaire_page
          (fun k => if k = SKey.helpItem "d" "c" CItem.a
            then some (PyVal.vbool true) else Option.none)
          [("d", ["c"])]).missing.length
      ≠ (render_questionnaire_page
          (fun k => if k = SKey.helpItem "d" "c" CItem.a
            then some (PyVal.vbool true) else Option.none)
          [("d", ["c"])]).totalShown := by
  decide

/-- C3 amended: the invariant holds for the completed count recomputed on the
post-evaluation state: that count plus the length of the missing list equals
the total number of questions, for every session state and every well-formed
bank.  The count displayed during the evaluation is computed from the
pre-evaluation state and can lag one render behind. -/
theorem claim_C3 (ss : St) (bank : List (String × List String))
    (hwf : WFBank bank) :
    count_completed_answers (render_questionnaire_page ss bank).finalState bank
        + (render_questionnaire_page ss bank).missing.length
      = totalQuestions bank := by
  unfold render_questionnaire_page
  exact evalQuestions_count bank _ hwf

/-- C3 witness: a one-question bank satisfies the amended invariant. -/
theorem claim_C3_witness :
    count_completed_answers
        (render_questionnaire_page (fun _ => Option.none)
          [("d", ["c"])]).finalState [("d", ["c"])]
        + (render_questionnaire_page (fun _ => Option.none)
            [("d", ["c"])]).missing.length
      = totalQuestions [("d", ["c"])] :=
  claim_C3 (fun _ => Option.none) [("d", ["c"])] ⟨by simp, by simp⟩

/-- C4 counterexample: the claim says reset clears the "results revealed"
flag, but reset_all_state pops only the question keys and the four
import-tracking page keys; a truthy `__show_results` flag survives the
reset. -/
theorem claim_C4_cex :
    reset_all_state
      (fun k => if k = SKey.named "__show_results"
        then some (PyVal.vbool true) else Option.none)
      [("d", ["c"])] (SKey.named "__show_results")
        = some (PyVal.vbool true) := by
  decide

/-- C4 amended: reset removes the eight owned keys of every question of the
bank and the four import-tracking page keys (the "results revealed" flag
`__show_results` is NOT cleared and survives the reset); after reset the
completed count is 0 and the missing list of the next evaluation contains
every question of the bank in order. -/
theorem claim_C4 (ss : St) (bank : List (String × List String))
    (hwf : WFBank bank) :
    (∀ p ∈ bank, ∀ con ∈ p.2, ∀ k ∈ ownedKeys p.1 con,
        reset_all_state ss bank k = Option.none)
    ∧ reset_all_state ss bank (SKey.named "company_name_loaded") = Option.none
    ∧ reset_all_state ss bank (SKey.named "auto_loaded_signature") = Option.none
    ∧ reset_all_state ss bank (SKey.named "answers_uploader") = Option.none
    ∧ reset_all_state ss bank (SKey.named "force_questionnaire_reload")
        = Option.none
    ∧ count_completed_answers (reset_all_state ss bank) bank = 0
    ∧ (render_questionnaire_page (reset_all_state ss bank) bank).missing
        = allLabels bank := by
  have hclear : ∀ p ∈ bank, ∀ con ∈ p.2, ∀ k ∈ ownedKeys p.1 con,
      reset_all_state ss bank k = Option.none := by
    intro p hp con hcon k hk
    unfold reset_all_state
    rw [foldl_eraseK, if_pos]
    exact List.mem_append.mpr (Or.inl (List.mem_flatMap.mpr
      ⟨p, hp, List.mem_flatMap.mpr ⟨con, hcon, hk⟩⟩))
  have hcount : count_completed_answers (reset_all_state ss bank) bank = 0 := by
    unfold count_completed_answers
    apply List.sum_eq_zero
    intro x hx
    obtain ⟨p, hp, rfl⟩ := List.mem_map.mp hx
    apply List.countP_eq_zero.mpr
    intro con hcon
    have hz := hclear p hp con hcon (SKey.level p.1 con) (by simp [ownedKeys])
    simp [getV, hz, is_valid_level]
  refine ⟨hclear,
    by unfold reset_all_state; rw [foldl_eraseK, if_pos (by simp)],
    by unfold reset_all_state; rw [foldl_eraseK, if_pos (by simp)],
    by unfold reset_all_state; rw [foldl_eraseK, if_pos (by simp)],
    by unfold reset_all_state; rw [foldl_eraseK, if_pos (by simp)],
    hcount, ?_⟩
  have hall : ∀ p ∈ bank, ∀ con ∈ p.2, ∀ k ∈ ownedKeys p.1 con,
      (eraseK (reset_all_state ss bank)
        (SKey.named "force_questionnaire_reload")) k = Option.none := by
    intro p hp con hcon k hk
    simp only [eraseK]
    split
    · rfl
    · exact hclear p hp con hcon k hk
  unfold render_questionnaire_page
  dsimp only
  rw [evalQuestions_allNone bank _ hwf hall, missingOf_allAbsent]

/-- C4 witness: after resetting a one-question bank, the missing list lists
that question. -/
theorem claim_C4_witness :
    (render_questionnaire_page
        (reset_all_state (fun _ => Option.none) [("d", ["c"])])
        [("d", ["c"])]).missing
      = allLabels [("d", ["c"])] :=
  (claim_C4 (fun _ => Option.none) [("d", ["c"])] ⟨by simp, by simp⟩).2.2.2.2.2.2

theorem render_disable_state (T : St) (dim concept : String)
    (h : truthy (getV T (build_question_keys dim concept).overrideKey) = true) :
    (questionRender T dim concept false true)
        (build_question_keys dim concept).overrideLevelKey = Option.none
    ∧ (questionRender T dim concept false true)
        (build_question_keys dim concept).overrideKey
          = some (PyVal.vbool false) := by
  unfold questionRender
  rw [enable_false]
  have hov3 : truthy (getV (autoPass (widgetPass
      (prepState T (build_question_keys dim concept))
      (build_question_keys dim concept)).1 (build_question_keys dim concept)
        (widgetPass (prepState T (build_question_keys dim concept))
          (build_question_keys dim concept)).2)
      (build_question_keys dim concept).overrideKey) = true := by
    unfold getV at h ⊢
    rw [autoPass_ne (by simp [build_question_keys]),
      widgetPass_ne (by simp [build_question_keys])
        (by simp [build_question_keys]) (by simp [build_question_keys])
        (by simp [build_question_keys]) (by simp [build_question_keys]),
      prep_ne (by simp [build_question_keys]) (by simp [build_question_keys])
        (by simp [build_question_keys]) (by simp [build_question_keys])
        (by simp [build_question_keys])]
    exact h
  exact controls_true_disable hov3 (by simp [build_question_keys])

/-- C6 counterexample: enabling then disabling the override on an empty
question leaves the abandoned override level (the default 2) stored; on the
next evaluation nothing is selected, so the claim requires the stored level
to be absent, but rehydration regenerates a selection from the abandoned
level and the stored level remains 2. -/
theorem claim_C6_cex :
    to_bool (getV (questionRender (questionRender (fun _ => Option.none)
        "d" "c" true false) "d" "c" false true)
      (SKey.helpItem "d" "c" CItem.a)) = false
    ∧ to_bool (getV (questionRender (questionRender (fun _ => Option.none)
        "d" "c" true false) "d" "c" false true)
      (SKey.helpItem "d" "c" CItem.b)) = false
    ∧ to_bool (getV (questionRender (questionRender (fun _ => Option.none)
        "d" "c" true false) "d" "c" false true)
      (SKey.helpItem "d" "c" CItem.c)) = false
    ∧ to_bool (getV (questionRender (questionRender (fun _ => Option.none)
        "d" "c" true false) "d" "c" false true)
      (SKey.helpItem "d" "c" CItem.rt)) = false
    ∧ to_bool (getV (questionRender (questionRender (fun _ => Option.none)
        "d" "c" true false) "d" "c" false true)
      (SKey.noneBox "d" "c")) = false
    ∧ compute_level_from_checklist false false false false false = Option.none
    ∧ (questionStep (questionRender (questionRender (fun _ => Option.none)
        "d" "c" true false) "d" "c" false true) "d" "c").1
      (SKey.level "d" "c") = some (PyVal.vint 2) := by
  decide

/-- C6 amended: enabling then immediately disabling the override deletes the
override-level key and sets the override flag to False; on the next
evaluation, provided at least one checkbox is selected, the stored level key
holds exactly the value the checklist rule computes from the selection the
widgets read (absent when the rule yields none).  When nothing is selected
and the abandoned level is valid, rehydration regenerates a selection from it
and the stored level keeps the abandoned override value. -/
theorem claim_C6 (ss : St) (dim concept : String) :
    (questionRender (questionRender ss dim concept true false)
        dim concept false true)
      (build_question_keys dim concept).overrideLevelKey = Option.none
    ∧ (questionRender (questionRender ss dim concept true false)
        dim concept false true)
      (build_question_keys dim concept).overrideKey = some (PyVal.vbool false)
    ∧ (has_any_checkbox_selected
        (normalize_checkbox_state
          (questionRender (questionRender ss dim concept true false)
            dim concept false true)
          (build_question_keys dim concept))
        (build_question_keys dim concept) = true
      → (questionStep (questionRender (questionRender ss dim concept true false)
            dim concept false true) dim concept).1
          (build_question_keys dim concept).qkey
        = Option.map PyVal.vint (compute_level_from_checklist
            (pageSel (questionRender (questionRender ss dim concept true false)
              dim concept false true) dim concept).nne
            (pageSel (questionRender (questionRender ss dim concept true false)
              dim concept false true) dim concept).a
            (pageSel (questionRender (questionRender ss dim concept true false)
              dim concept false true) dim concept).b
            (pageSel (questionRender (questionRender ss dim concept true false)
              dim concept false true) dim concept).c
            (pageSel (questionRender (questionRender ss dim concept true false)
              dim concept false true) dim concept).rt)) := by
  have h1 := render_disable_state (questionRender ss dim concept true false)
    dim concept
    (by unfold questionRender
        exact enable_true_override (by simp [build_question_keys]))
  refine ⟨h1.1, h1.2, fun hA => step_qkey_auto _ dim concept hA ?_⟩
  unfold getV
  rw [h1.2]
  rfl

/-- C6 witness: with a checkbox selected, the post-disable evaluation stores
exactly the rule's value for the selection read by the widgets. -/
theorem claim_C6_witness :
    (questionStep (questionRender (questionRender
        (fun k => if k = SKey.helpItem "d" "c" CItem.a
          then some (PyVal.vbool true) else Option.none)
        "d" "c" true false) "d" "c" false true) "d" "c").1
      (build_question_keys "d" "c").qkey
    = Option.map PyVal.vint (compute_level_from_checklist
        (pageSel (questionRender (questionRender
          (fun k => if k = SKey.helpItem "d" "c" CItem.a
            then some (PyVal.vbool true) else Option.none)
          "d" "c" true false) "d" "c" false true) "d" "c").nne
        (pageSel (questionRender (questionRender
          (fun k => if k = SKey.helpItem "d" "c" CItem.a
            then some (PyVal.vbool true) else Option.none)
          "d" "c" true false) "d" "c" false true) "d" "c").a
        (pageSel (questionRender (questionRender
          (fun k => if k = SKey.helpItem "d" "c" CItem.a
            then some (PyVal.vbool true) else Option.none)
          "d" "c" true false) "d" "c" false true) "d" "c").b
        (pageSel (questionRender (questionRender
          (fun k => if k = SKey.helpItem "d" "c" CItem.a
            then some (PyVal.vbool true) else Option.none)
          "d" "c" true false) "d" "c" false true) "d" "c").c
        (pageSel (questionRender (questionRender
          (fun k => if k = SKey.helpItem "d" "c" CItem.a
            then some (PyVal.vbool true) else Option.none)
          "d" "c" true false) "d" "c" false true) "d" "c").rt) :=
  (claim_C6 (fun k => if k = SKey.helpItem "d" "c" CItem.a
      then some (PyVal.vbool true) else Option.none) "d" "c").2.2 (by decide)

/-- C7: when the enable-override action fires while not overriding, the
override flag becomes true, and the override level is seeded with
`int(current stored level)` whenever the stored level is valid — covering
both a stored integer in 1..5 (seeded with itself) and a stored Python True,
which is_valid_level also accepts and which int() sends to 1 — and with the
default 2 when the stored level is not valid. -/
theorem claim_C7 (ss : St) (dim concept : String)
    (h : truthy (getV ss (build_question_keys dim concept).overrideKey)
      = false) :
    getV (render_enable_override_button ss (build_question_keys dim concept)
        true) (build_question_keys dim concept).overrideKey = PyVal.vbool true
    ∧ (∀ v : PyVal,
        ss (build_question_keys dim concept).qkey = some v
        → is_valid_level v = true
        → render_enable_override_button ss (build_question_keys dim concept)
            true (build_question_keys dim concept).overrideLevelKey
              = some (PyVal.vint (pyInt v)))
    ∧ (∀ n : Int,
        ss (build_question_keys dim concept).qkey = some (PyVal.vint n)
        → n ∈ VALID_LEVELS
        → render_enable_override_button ss (build_question_keys dim concept)
            true (build_question_keys dim concept).overrideLevelKey
              = some (PyVal.vint n))
    ∧ (ss (build_question_keys dim concept).qkey = some (PyVal.vbool true)
        → render_enable_override_button ss (build_question_keys dim concept)
            true (build_question_keys dim concept).overrideLevelKey
              = some (PyVal.vint 1))
    ∧ (is_valid_level (getV ss (build_question_keys dim concept).qkey) = false
        → render_enable_override_button ss (build_question_keys dim concept)
            true (build_question_keys dim concept).overrideLevelKey
              = some (PyVal.vint LEVEL_DEFAULT)) := by
  have hfalse : ¬ truthy (getV ss
      (build_question_keys dim concept).overrideKey) = true := by
    simp [h]
  have hgen : ∀ v : PyVal,
      ss (build_question_keys dim concept).qkey = some v
      → is_valid_level v = true
      → render_enable_override_button ss (build_question_keys dim concept)
          true (build_question_keys dim concept).overrideLevelKey
            = some (PyVal.vint (pyInt v)) := by
    intro v hq hval
    unfold render_enable_override_button
    rw [if_neg hfalse, if_pos rfl]
    simp only [setK_self,
      getV_setK_ne (show (build_question_keys dim concept).qkey
        ≠ (build_question_keys dim concept).overrideKey
          by simp [build_question_keys])]
    have hgv : getV ss (build_question_keys dim concept).qkey = v := by
      simp [getV, hq]
    rw [hgv, if_pos hval]
  refine ⟨?_, hgen, fun n hq hmem => ?_, fun hq => ?_, fun hinv => ?_⟩
  · unfold render_enable_override_button
    rw [if_neg hfalse, if_pos rfl]
    simp only [getV_setK_ne (show (build_question_keys dim concept).overrideKey
      ≠ (build_question_keys dim concept).overrideLevelKey
        by simp [build_question_keys]), getV_setK_self]
  · exact hgen (PyVal.vint n) hq
      (by simp only [is_valid_level]; simpa using hmem)
  · exact hgen (PyVal.vbool true) hq rfl
  · unfold render_enable_override_button
    rw [if_neg hfalse, if_pos rfl]
    simp only [setK_self,
      getV_setK_ne (show (build_question_keys dim concept).qkey
        ≠ (build_question_keys dim concept).overrideKey
          by simp [build_question_keys])]
    rw [if_neg (by simp [hinv])]

/-- C7 witness: firing the enable action on an empty state turns the
override flag on. -/
theorem claim_C7_witness :
    getV (render_enable_override_button (fun _ => Option.none)
        (build_question_keys "d" "c") true)
      (build_question_keys "d" "c").overrideKey = PyVal.vbool true :=
  (claim_C7 (fun _ => Option.none) "d" "c" (by decide)).1
